import Mathlib

/-!
# SGBMTuner: the main window of the disparity-map tuner

A shallow embedding of `src/SGBMTuner/mainwindow.cpp`.

* C++ `int` values are integers; the two subtractions of the source are
  reduced to 32 bits by `wrapInt`, and `%` is the truncating remainder
  `Int.tmod` (the sign of the result follows the dividend).
* A `cv::Mat` is its `rows`, its `cols` and its pixel accessor `at_`.
* The member `sgbm_` is the record `StereoSGBM`; the matcher behind
  `sgbm_.operator()` and the image decoder are library code and are taken as
  the environment `Env`.  Every call of the matcher is logged in the ghost
  field `sgbm_calls`.
* A slider is the last value and the last maximum written to it, with a ghost
  log of the values written.  Qt connects
  `valueChanged(int)` of each slider to the slot `on_<slider>_valueChanged`,
  so `setValue(v)` is the write of `v` followed by a run of that slot with
  `v`.  The range clamp of the slider is not modelled: the ranges are set in
  the form file, which is not among the sources.
* A handler returns `none` when the run is cut short by a fault (an OpenCV
  exception, a division by zero).
-/

namespace SGBMTuner

/-! ## Machine integers -/

/-- Least value of a 32-bit `int`. -/
def INT_MIN : Int := -2147483648

/-- Greatest value of a 32-bit `int`. -/
def INT_MAX : Int := 2147483647

/-- Reduction of an integer to the 32-bit two's complement range. -/
def wrapInt (x : Int) : Int := (x + 2147483648) % 4294967296 - 2147483648

/-- The C++ operator `%` on `int`: remainder of the division truncated towards zero. -/
def cRem (a b : Int) : Int := Int.tmod a b

/-- The cast `(unsigned char)` of a `short`: reduction modulo 256. -/
def castUChar (x : Int) : Int := x % 256

/-! ## Data model -/

/-- A single-channel `cv::Mat`: dimensions and the accessor `at<T>(i, j)`. -/
structure Mat where
  rows : Nat
  cols : Nat
  at_ : Nat → Nat → Int

/-- The default-constructed `cv::Mat`, which holds no pixel. -/
def Mat.nil : Mat := { rows := 0, cols := 0, at_ := fun _ _ => 0 }

/-- The test `cv::Mat::empty()`: the matrix has no element. -/
def Mat.empty (m : Mat) : Bool := m.rows == 0 || m.cols == 0

/-- All pixels of a matrix, row by row. -/
def Mat.pixels (m : Mat) : List Int :=
  (List.range m.rows).flatMap fun i => (List.range m.cols).map fun j => m.at_ i j

/-- Least pixel value of a matrix (0 for a matrix without pixels). -/
def Mat.minVal (m : Mat) : Int := m.pixels.foldl min (m.pixels.headD 0)

/-- Greatest pixel value of a matrix (0 for a matrix without pixels). -/
def Mat.maxVal (m : Mat) : Int := m.pixels.foldl max (m.pixels.headD 0)

/-- The parameter block `cv::StereoSGBM` held in the member `sgbm_`. -/
structure StereoSGBM where
  preFilterCap : Int
  SADWindowSize : Int
  minDisparity : Int
  numberOfDisparities : Int
  uniquenessRatio : Int
  speckleWindowSize : Int
  speckleRange : Int
  disp12MaxDiff : Int
  P1 : Int
  P2 : Int
  fullDP : Bool
  deriving DecidableEq, Repr

/-- The default-constructed `cv::StereoSGBM`; the constructor of the window
overwrites every field. -/
def StereoSGBM.default : StereoSGBM :=
  { preFilterCap := 0, SADWindowSize := 0, minDisparity := 0, numberOfDisparities := 0,
    uniquenessRatio := 0, speckleWindowSize := 0, speckleRange := 0, disp12MaxDiff := 0,
    P1 := 0, P2 := 0, fullDP := false }

/-- A slider widget: the last value and the last maximum written to it.  The
field `written` is a ghost log of the arguments of all `setValue` calls on the
slider, oldest first. -/
structure QSlider where
  value : Int
  maximum : Int
  written : List Int
  deriving DecidableEq, Repr

/-- The write done by `QSlider::setValue(v)`; the slot that the call runs is
spelled out at each call site. -/
def QSlider.setValue (s : QSlider) (v : Int) : QSlider :=
  { s with value := v, written := s.written ++ [v] }

/-- The call `QSlider::setMaximum(v)`. -/
def QSlider.setMaximum (s : QSlider) (v : Int) : QSlider :=
  { s with maximum := v }

/-- What the label `label_depth_map` shows. -/
inductive LabelContent where
  | blank : LabelContent
  | text : String → LabelContent
  | pixmap : Mat → LabelContent

/-- The widgets of the form that the source reads or writes. -/
structure Ui_MainWindow where
  horizontalSlider_pre_filter_cap : QSlider
  horizontalSlider_SAD_window_size : QSlider
  horizontalSlider_min_disparity : QSlider
  horizontalSlider_num_of_disparity : QSlider
  horizontalSlider_uniqueness_ratio : QSlider
  horizontalSlider_speckle_window_size : QSlider
  horizontalSlider_speckle_range : QSlider
  horizontalSlider_disp_12_max_diff : QSlider
  horizontalSlider_P1 : QSlider
  horizontalSlider_P2 : QSlider
  horizontalSlider_use_full_dp : QSlider
  label_image_left : Option String
  label_image_right : Option String
  label_depth_map : LabelContent

/-- The state of `MainWindow`.  The field `sgbm_calls` is a ghost log: the
parameters of every invocation of the matcher, oldest first. -/
structure MainWindow where
  ui : Ui_MainWindow
  sgbm_ : StereoSGBM
  left_image : Mat
  right_image : Mat
  sgbm_calls : List StereoSGBM

/-- The library code around the window: `sgbm` is `cv::StereoSGBM::operator()`
(parameters, left image, right image, resulting 16-bit disparity), `imread` is
`cv::imread` followed by the conversion to gray; an unreadable file gives an
empty matrix. -/
structure Env where
  sgbm : StereoSGBM → Mat → Mat → Mat
  imread : String → Mat

/-! ## Normalization and display of the disparity map -/

/-- Rounding of the quotient `n / d` to the nearest integer, halves upwards:
the floor of `n / d + 1 / 2`. -/
def roundDiv (n d : Int) : Int := Int.fdiv (2 * n + d) (2 * d)

/-- Restriction of `x` to the interval from `lo` to `hi`. -/
def clamp (lo hi x : Int) : Int := max lo (min hi x)

/-- Modelled from the spec: `cv::normalize(src, dst, 0, 255, CV_MINMAX)` is an
OpenCV library routine whose code is not among the sources.  Following section
4.3 of the specification, the minimum and the maximum are taken over all pixels;
a field with `max == min` is mapped to 0 everywhere; otherwise every value
becomes `round((value - min) * 255 / (max - min))` clamped to the range 0..255.
The only division is by `max - min`; the result is `none` when that divisor is
zero at the point where the division is due.  The library computes the
rescaling in floating point; here it is exact. -/
def cv_normalize (src : Mat) : Option Mat :=
  let mn := src.minVal
  let mx := src.maxVal
  if mx = mn then
    some { src with at_ := fun _ _ => 0 }
  else if mx - mn = 0 then
    none
  else
    some { src with at_ := fun i j => clamp 0 255 (roundDiv ((src.at_ i j - mn) * 255) (mx - mn)) }

/-- The loop of lines 156-159: a fresh matrix of the same dimensions whose
pixel `(i, j)` is the `unsigned char` cast of the `short` at `(i, j)`. -/
def convert_16S_to_8U (disparity_16S : Mat) : Mat :=
  { rows := disparity_16S.rows
    cols := disparity_16S.cols
    at_ := fun i j =>
      if i < disparity_16S.rows ∧ j < disparity_16S.cols then castUChar (disparity_16S.at_ i j)
      else 0 }

/-- Lines 153-159 of `compute_depth_map`: normalization, then conversion to 8 bits. -/
def normalize_and_convert (disparity_16S : Mat) : Option Mat :=
  (cv_normalize disparity_16S).map convert_16S_to_8U

/-- The text shown when the two images differ in size (line 140). -/
def sizeMismatchText : String :=
  "Can't compute depth map: left and right images should be the same size"

/-- `MainWindow::compute_depth_map` (lines 133-175).  The gray image `disp` is
replicated to three equal channels before display, so the label is recorded as
showing `disp`. -/
def compute_depth_map (env : Env) (w : MainWindow) : Option MainWindow :=
  if w.left_image.empty || w.right_image.empty then
    some w
  else if w.left_image.rows != w.right_image.rows || w.left_image.cols != w.right_image.cols then
    some { w with ui := { w.ui with label_depth_map := LabelContent.text sizeMismatchText } }
  else
    let disparity_16S := env.sgbm w.sgbm_ w.left_image w.right_image
    let w1 := { w with sgbm_calls := w.sgbm_calls ++ [w.sgbm_] }
    match normalize_and_convert disparity_16S with
    | none => none
    | some disp => some { w1 with ui := { w1.ui with label_depth_map := LabelContent.pixmap disp } }

/-! ## Slots of the sliders -/

/-- `MainWindow::on_horizontalSlider_pre_filter_cap_valueChanged` (lines 182-186). -/
def on_horizontalSlider_pre_filter_cap_valueChanged (env : Env) (value : Int)
    (w : MainWindow) : Option MainWindow :=
  compute_depth_map env { w with sgbm_ := { w.sgbm_ with preFilterCap := value } }

/-- `MainWindow::set_SADWindowSize` (lines 192-205): the maximum of the
SAD-window slider is derived from the two image members. -/
def set_SADWindowSize (w : MainWindow) : MainWindow :=
  let value : Int := 255
  let value :=
    if !w.left_image.empty then min value (min (w.left_image.cols : Int) (w.left_image.rows : Int))
    else value
  let value :=
    if !w.right_image.empty then
      min value (min (w.right_image.cols : Int) (w.right_image.rows : Int))
    else value
  let value := max value 5
  { w with ui := { w.ui with horizontalSlider_SAD_window_size :=
      w.ui.horizontalSlider_SAD_window_size.setMaximum value } }

/-- `MainWindow::on_horizontalSlider_SAD_window_size_valueChanged` (lines
208-217).  The call `setValue(value)` of line 212 writes the slider and runs
this slot again with the decremented value. -/
def on_horizontalSlider_SAD_window_size_valueChanged (env : Env) (value : Int)
    (w : MainWindow) : Option MainWindow :=
  if h : cRem value 2 = 0 then
    let value1 := wrapInt (value - 1)
    let wS := { w with ui := { w.ui with horizontalSlider_SAD_window_size :=
      w.ui.horizontalSlider_SAD_window_size.setValue value1 } }
    match on_horizontalSlider_SAD_window_size_valueChanged env value1 wS with
    | none => none
    | some w1 => compute_depth_map env { w1 with sgbm_ := { w1.sgbm_ with SADWindowSize := value1 } }
  else
    compute_depth_map env { w with sgbm_ := { w.sgbm_ with SADWindowSize := value } }
termination_by (if cRem value 2 = 0 then 1 else 0 : Nat)
decreasing_by
  have key : ∀ a : Int, a.tdiv 2 = if 0 ≤ a then a / 2 else -((-a) / 2) := by
    intro a
    split
    · exact Int.tdiv_eq_ediv ‹_› (by decide)
    · have e := Int.tdiv_eq_ediv (a := -a) (b := 2) (by omega) (by decide)
      rw [Int.neg_tdiv] at e
      omega
  have h2 : cRem (wrapInt (value - 1)) 2 ≠ 0 := by
    unfold cRem wrapInt at *
    have e := Int.tmod_def value 2
    have e1 := Int.tmod_def ((value - 1 + 2147483648) % 4294967296 - 2147483648) 2
    have k := key value
    have k1 := key ((value - 1 + 2147483648) % 4294967296 - 2147483648)
    split at k <;> split at k1 <;> omega
  simp [h, h2]

/-- `MainWindow::on_horizontalSlider_min_disparity_valueChanged` (lines 221-225). -/
def on_horizontalSlider_min_disparity_valueChanged (env : Env) (value : Int)
    (w : MainWindow) : Option MainWindow :=
  compute_depth_map env { w with sgbm_ := { w.sgbm_ with minDisparity := value } }

/-- `MainWindow::set_num_of_disparity_slider_to_multiple_16` (lines 244-252).
The call `setValue(value)` of line 247 writes the slider and runs the slot
`on_horizontalSlider_num_of_disparity_valueChanged`, whose body is a call of
this function, with the reduced value. -/
def set_num_of_disparity_slider_to_multiple_16 (env : Env) (value : Int)
    (w : MainWindow) : Option MainWindow :=
  if h : cRem value 16 ≠ 0 then
    let value1 := wrapInt (value - cRem value 16)
    let wS := { w with ui := { w.ui with horizontalSlider_num_of_disparity :=
      w.ui.horizontalSlider_num_of_disparity.setValue value1 } }
    match set_num_of_disparity_slider_to_multiple_16 env value1 wS with
    | none => none
    | some w1 =>
      compute_depth_map env { w1 with sgbm_ := { w1.sgbm_ with numberOfDisparities := value1 } }
  else
    compute_depth_map env { w with sgbm_ := { w.sgbm_ with numberOfDisparities := value } }
termination_by (if cRem value 16 ≠ 0 then 1 else 0 : Nat)
decreasing_by
  have key : ∀ a : Int, a.tdiv 16 = if 0 ≤ a then a / 16 else -((-a) / 16) := by
    intro a
    split
    · exact Int.tdiv_eq_ediv ‹_› (by decide)
    · have e := Int.tdiv_eq_ediv (a := -a) (b := 16) (by omega) (by decide)
      rw [Int.neg_tdiv] at e
      omega
  have h2 : cRem (wrapInt (value - cRem value 16)) 16 = 0 := by
    unfold cRem wrapInt at *
    have e := Int.tmod_def value 16
    have e1 := Int.tmod_def
      ((value - Int.tmod value 16 + 2147483648) % 4294967296 - 2147483648) 16
    have k := key value
    have k1 := key ((value - Int.tmod value 16 + 2147483648) % 4294967296 - 2147483648)
    split at k <;> split at k1 <;> omega
  simp [h, h2]

/-- `MainWindow::on_horizontalSlider_num_of_disparity_sliderMoved` (lines 231-234). -/
def on_horizontalSlider_num_of_disparity_sliderMoved (env : Env) (value : Int)
    (w : MainWindow) : Option MainWindow :=
  set_num_of_disparity_slider_to_multiple_16 env value w

/-- `MainWindow::on_horizontalSlider_num_of_disparity_valueChanged` (lines 239-242). -/
def on_horizontalSlider_num_of_disparity_valueChanged (env : Env) (value : Int)
    (w : MainWindow) : Option MainWindow :=
  set_num_of_disparity_slider_to_multiple_16 env value w

/-- `MainWindow::on_horizontalSlider_uniqueness_ratio_valueChanged` (lines 256-260). -/
def on_horizontalSlider_uniqueness_ratio_valueChanged (env : Env) (value : Int)
    (w : MainWindow) : Option MainWindow :=
  compute_depth_map env { w with sgbm_ := { w.sgbm_ with uniquenessRatio := value } }

/-- `MainWindow::on_horizontalSlider_speckle_window_size_valueChanged` (lines 264-268). -/
def on_horizontalSlider_speckle_window_size_valueChanged (env : Env) (value : Int)
    (w : MainWindow) : Option MainWindow :=
  compute_depth_map env { w with sgbm_ := { w.sgbm_ with speckleWindowSize := value } }

/-- `MainWindow::on_horizontalSlider_speckle_range_valueChanged` (lines 272-276). -/
def on_horizontalSlider_speckle_range_valueChanged (env : Env) (value : Int)
    (w : MainWindow) : Option MainWindow :=
  compute_depth_map env { w with sgbm_ := { w.sgbm_ with speckleRange := value } }

/-- `MainWindow::on_horizontalSlider_disp_12_max_diff_valueChanged` (lines 280-284). -/
def on_horizontalSlider_disp_12_max_diff_valueChanged (env : Env) (value : Int)
    (w : MainWindow) : Option MainWindow :=
  compute_depth_map env { w with sgbm_ := { w.sgbm_ with disp12MaxDiff := value } }

/-- `MainWindow::on_horizontalSlider_P1_valueChanged` (lines 291-294). -/
def on_horizontalSlider_P1_valueChanged (env : Env) (value : Int)
    (w : MainWindow) : Option MainWindow :=
  compute_depth_map env { w with sgbm_ := { w.sgbm_ with P1 := value } }

/-- `MainWindow::on_horizontalSlider_P2_valueChanged` (lines 306-309). -/
def on_horizontalSlider_P2_valueChanged (env : Env) (value : Int)
    (w : MainWindow) : Option MainWindow :=
  compute_depth_map env { w with sgbm_ := { w.sgbm_ with P2 := value } }

/-- `MainWindow::on_horizontalSlider_use_full_dp_valueChanged` (lines 312-315):
the `int` is converted to `bool`. -/
def on_horizontalSlider_use_full_dp_valueChanged (env : Env) (value : Int)
    (w : MainWindow) : Option MainWindow :=
  compute_depth_map env { w with sgbm_ := { w.sgbm_ with fullDP := decide (value ≠ 0) } }

/-! ## Image buttons -/

/-- `MainWindow::on_pushButton_left_clicked` (lines 60-93).  `filename` is the
answer of the file dialog, the empty string when the dialog was dismissed.  The
label is recorded as showing the chosen file.  `cvtColor` raises on the empty
matrix that `imread` returns for an unreadable file. -/
def on_pushButton_left_clicked (env : Env) (filename : String)
    (w : MainWindow) : Option MainWindow :=
  if filename.isEmpty then
    some w
  else
    let w1 := { w with ui := { w.ui with label_image_left := some filename } }
    let w2 := set_SADWindowSize w1
    let mat := env.imread filename
    if mat.empty then
      none
    else
      compute_depth_map env { w2 with left_image := mat }

/-- `MainWindow::on_pushButton_right_clicked` (lines 97-130), the mirror image
of the handler of the left button. -/
def on_pushButton_right_clicked (env : Env) (filename : String)
    (w : MainWindow) : Option MainWindow :=
  if filename.isEmpty then
    some w
  else
    let w1 := { w with ui := { w.ui with label_image_right := some filename } }
    let w2 := set_SADWindowSize w1
    let mat := env.imread filename
    if mat.empty then
      none
    else
      compute_depth_map env { w2 with right_image := mat }

/-! ## Constructor -/

/-- Conversion of a `bool` to `int`. -/
def boolToInt (b : Bool) : Int := if b then 1 else 0

/-- `MainWindow::MainWindow` (lines 11-51).  `ui0` is the form as `setupUi`
leaves it.  Each `setValue` writes the slider and runs its slot. -/
def MainWindow_ctor (env : Env) (ui0 : Ui_MainWindow) : Option MainWindow := do
  let w : MainWindow :=
    { ui := ui0, sgbm_ := StereoSGBM.default, left_image := Mat.nil, right_image := Mat.nil,
      sgbm_calls := [] }
  let w := { w with sgbm_ := { w.sgbm_ with preFilterCap := 42 } }
  let w ← on_horizontalSlider_pre_filter_cap_valueChanged env w.sgbm_.preFilterCap
    { w with ui := { w.ui with horizontalSlider_pre_filter_cap :=
      w.ui.horizontalSlider_pre_filter_cap.setValue w.sgbm_.preFilterCap } }
  let w := { w with sgbm_ := { w.sgbm_ with SADWindowSize := 11 } }
  let w ← on_horizontalSlider_SAD_window_size_valueChanged env w.sgbm_.SADWindowSize
    { w with ui := { w.ui with horizontalSlider_SAD_window_size :=
      w.ui.horizontalSlider_SAD_window_size.setValue w.sgbm_.SADWindowSize } }
  let w := { w with sgbm_ := { w.sgbm_ with minDisparity := -66 } }
  let w ← on_horizontalSlider_min_disparity_valueChanged env w.sgbm_.minDisparity
    { w with ui := { w.ui with horizontalSlider_min_disparity :=
      w.ui.horizontalSlider_min_disparity.setValue w.sgbm_.minDisparity } }
  let w := { w with sgbm_ := { w.sgbm_ with numberOfDisparities := 128 } }
  let w ← on_horizontalSlider_num_of_disparity_valueChanged env w.sgbm_.numberOfDisparities
    { w with ui := { w.ui with horizontalSlider_num_of_disparity :=
      w.ui.horizontalSlider_num_of_disparity.setValue w.sgbm_.numberOfDisparities } }
  let w := { w with sgbm_ := { w.sgbm_ with uniquenessRatio := 15 } }
  let w ← on_horizontalSlider_uniqueness_ratio_valueChanged env w.sgbm_.uniquenessRatio
    { w with ui := { w.ui with horizontalSlider_uniqueness_ratio :=
      w.ui.horizontalSlider_uniqueness_ratio.setValue w.sgbm_.uniquenessRatio } }
  let w := { w with sgbm_ := { w.sgbm_ with speckleWindowSize := 0 } }
  let w ← on_horizontalSlider_speckle_window_size_valueChanged env w.sgbm_.speckleWindowSize
    { w with ui := { w.ui with horizontalSlider_speckle_window_size :=
      w.ui.horizontalSlider_speckle_window_size.setValue w.sgbm_.speckleWindowSize } }
  let w := { w with sgbm_ := { w.sgbm_ with speckleRange := 0 } }
  let w ← on_horizontalSlider_speckle_range_valueChanged env w.sgbm_.speckleRange
    { w with ui := { w.ui with horizontalSlider_speckle_range :=
      w.ui.horizontalSlider_speckle_range.setValue w.sgbm_.speckleRange } }
  let w := { w with sgbm_ := { w.sgbm_ with disp12MaxDiff := -1 } }
  let w ← on_horizontalSlider_disp_12_max_diff_valueChanged env w.sgbm_.disp12MaxDiff
    { w with ui := { w.ui with horizontalSlider_disp_12_max_diff :=
      w.ui.horizontalSlider_disp_12_max_diff.setValue w.sgbm_.disp12MaxDiff } }
  let w := { w with sgbm_ := { w.sgbm_ with P1 := 120 } }
  let w ← on_horizontalSlider_P1_valueChanged env w.sgbm_.P1
    { w with ui := { w.ui with horizontalSlider_P1 :=
      w.ui.horizontalSlider_P1.setValue w.sgbm_.P1 } }
  let w := { w with sgbm_ := { w.sgbm_ with P2 := 240 } }
  let w ← on_horizontalSlider_P2_valueChanged env w.sgbm_.P2
    { w with ui := { w.ui with horizontalSlider_P2 :=
      w.ui.horizontalSlider_P2.setValue w.sgbm_.P2 } }
  let w := { w with sgbm_ := { w.sgbm_ with fullDP := false } }
  on_horizontalSlider_use_full_dp_valueChanged env (boolToInt w.sgbm_.fullDP)
    { w with ui := { w.ui with horizontalSlider_use_full_dp :=
      w.ui.horizontalSlider_use_full_dp.setValue (boolToInt w.sgbm_.fullDP) } }

/-! ## Runs of the window -/

/-- One user action: a slider callback with its `int` argument, or a click on
one of the two image buttons with the answer of the file dialog. -/
inductive Event where
  | pre_filter_cap : Int → Event
  | SAD_window_size : Int → Event
  | min_disparity : Int → Event
  | num_of_disparity_sliderMoved : Int → Event
  | num_of_disparity : Int → Event
  | uniqueness_ratio : Int → Event
  | speckle_window_size : Int → Event
  | speckle_range : Int → Event
  | disp_12_max_diff : Int → Event
  | P1 : Int → Event
  | P2 : Int → Event
  | use_full_dp : Int → Event
  | pushButton_left : String → Event
  | pushButton_right : String → Event

/-- The handler that an event runs. -/
def step (env : Env) (e : Event) (w : MainWindow) : Option MainWindow :=
  match e with
  | Event.pre_filter_cap v => on_horizontalSlider_pre_filter_cap_valueChanged env v w
  | Event.SAD_window_size v => on_horizontalSlider_SAD_window_size_valueChanged env v w
  | Event.min_disparity v => on_horizontalSlider_min_disparity_valueChanged env v w
  | Event.num_of_disparity_sliderMoved v => on_horizontalSlider_num_of_disparity_sliderMoved env v w
  | Event.num_of_disparity v => on_horizontalSlider_num_of_disparity_valueChanged env v w
  | Event.uniqueness_ratio v => on_horizontalSlider_uniqueness_ratio_valueChanged env v w
  | Event.speckle_window_size v => on_horizontalSlider_speckle_window_size_valueChanged env v w
  | Event.speckle_range v => on_horizontalSlider_speckle_range_valueChanged env v w
  | Event.disp_12_max_diff v => on_horizontalSlider_disp_12_max_diff_valueChanged env v w
  | Event.P1 v => on_horizontalSlider_P1_valueChanged env v w
  | Event.P2 v => on_horizontalSlider_P2_valueChanged env v w
  | Event.use_full_dp v => on_horizontalSlider_use_full_dp_valueChanged env v w
  | Event.pushButton_left f => on_pushButton_left_clicked env f w
  | Event.pushButton_right f => on_pushButton_right_clicked env f w

/-- The events handled one after the other. -/
def run (env : Env) : List Event → MainWindow → Option MainWindow
  | [], w => some w
  | e :: es, w =>
    match step env e w with
    | none => none
    | some w1 => run env es w1

/-- An `int` other than `INT_MIN`. -/
def IntArg (v : Int) : Prop := INT_MIN < v ∧ v ≤ INT_MAX

/-- The slider argument of an event is an `int` other than `INT_MIN`. -/
def Event.valid : Event → Prop
  | Event.pre_filter_cap v => IntArg v
  | Event.SAD_window_size v => IntArg v
  | Event.min_disparity v => IntArg v
  | Event.num_of_disparity_sliderMoved v => IntArg v
  | Event.num_of_disparity v => IntArg v
  | Event.uniqueness_ratio v => IntArg v
  | Event.speckle_window_size v => IntArg v
  | Event.speckle_range v => IntArg v
  | Event.disp_12_max_diff v => IntArg v
  | Event.P1 v => IntArg v
  | Event.P2 v => IntArg v
  | Event.use_full_dp v => IntArg v
  | Event.pushButton_left _ => True
  | Event.pushButton_right _ => True

/-! ## Pixels of a field -/

/-- Pixel `(i, j)` lies in the field and no pixel of the field is smaller. -/
def Mat.IsMinAt (m : Mat) (i j : Nat) : Prop :=
  i < m.rows ∧ j < m.cols ∧ ∀ p q, p < m.rows → q < m.cols → m.at_ i j ≤ m.at_ p q

/-- Pixel `(i, j)` lies in the field and no pixel of the field is greater. -/
def Mat.IsMaxAt (m : Mat) (i j : Nat) : Prop :=
  i < m.rows ∧ j < m.cols ∧ ∀ p q, p < m.rows → q < m.cols → m.at_ p q ≤ m.at_ i j

/-- All pixels of the field hold the same value. -/
def Mat.Uniform (m : Mat) : Prop :=
  ∀ i j p q, i < m.rows → j < m.cols → p < m.rows → q < m.cols → m.at_ i j = m.at_ p q

/-! ## States of the window -/

/-- The parameters that the constructor assigns (lines 19-49). -/
def ctorParams : StereoSGBM :=
  { preFilterCap := 42, SADWindowSize := 11, minDisparity := -66, numberOfDisparities := 128,
    uniquenessRatio := 15, speckleWindowSize := 0, speckleRange := 0, disp12MaxDiff := -1,
    P1 := 120, P2 := 240, fullDP := false }

/-- What a run of `compute_depth_map` may change: the parameters, the images and
the sliders are kept, the log of matcher calls grows by copies of the current
parameters. -/
def ComputeStep (w w1 : MainWindow) : Prop :=
  w1.sgbm_ = w.sgbm_ ∧ w1.left_image = w.left_image ∧ w1.right_image = w.right_image ∧
    w1.ui.horizontalSlider_SAD_window_size = w.ui.horizontalSlider_SAD_window_size ∧
    w1.ui.horizontalSlider_num_of_disparity = w.ui.horizontalSlider_num_of_disparity ∧
    ∃ k, w1.sgbm_calls = w.sgbm_calls ++ List.replicate k w.sgbm_

/-- The two structural constraints on a parameter block: the SAD window size is
odd and the number of disparities is divisible by 16. -/
def GoodParams (p : StereoSGBM) : Prop :=
  p.SADWindowSize % 2 = 1 ∧ p.numberOfDisparities % 16 = 0

/-- The stored parameters meet the two constraints, and so did the parameters
of every invocation of the matcher so far. -/
def Inv (w : MainWindow) : Prop :=
  GoodParams w.sgbm_ ∧ ∀ p ∈ w.sgbm_calls, GoodParams p

/-- The window that the constructor builds from the form `ui0`. -/
def ctorWindow (ui0 : Ui_MainWindow) : MainWindow :=
  { ui :=
      { ui0 with
        horizontalSlider_pre_filter_cap := ui0.horizontalSlider_pre_filter_cap.setValue 42
        horizontalSlider_SAD_window_size := ui0.horizontalSlider_SAD_window_size.setValue 11
        horizontalSlider_min_disparity := ui0.horizontalSlider_min_disparity.setValue (-66)
        horizontalSlider_num_of_disparity := ui0.horizontalSlider_num_of_disparity.setValue 128
        horizontalSlider_uniqueness_ratio := ui0.horizontalSlider_uniqueness_ratio.setValue 15
        horizontalSlider_speckle_window_size :=
          ui0.horizontalSlider_speckle_window_size.setValue 0
        horizontalSlider_speckle_range := ui0.horizontalSlider_speckle_range.setValue 0
        horizontalSlider_disp_12_max_diff := ui0.horizontalSlider_disp_12_max_diff.setValue (-1)
        horizontalSlider_P1 := ui0.horizontalSlider_P1.setValue 120
        horizontalSlider_P2 := ui0.horizontalSlider_P2.setValue 240
        horizontalSlider_use_full_dp := ui0.horizontalSlider_use_full_dp.setValue 0 }
    sgbm_ := ctorParams
    left_image := Mat.nil
    right_image := Mat.nil
    sgbm_calls := [] }

/-! ## Sample data -/

/-- A form whose sliders all stand at 0 with maximum 0 and whose labels are blank. -/
def sampleUi : Ui_MainWindow :=
  let s : QSlider := { value := 0, maximum := 0, written := [] }
  { horizontalSlider_pre_filter_cap := s, horizontalSlider_SAD_window_size := s,
    horizontalSlider_min_disparity := s, horizontalSlider_num_of_disparity := s,
    horizontalSlider_uniqueness_ratio := s, horizontalSlider_speckle_window_size := s,
    horizontalSlider_speckle_range := s, horizontalSlider_disp_12_max_diff := s,
    horizontalSlider_P1 := s, horizontalSlider_P2 := s, horizontalSlider_use_full_dp := s,
    label_image_left := none, label_image_right := none, label_depth_map := LabelContent.blank }

/-- A gray image of the given size whose pixel `(i, j)` is `i + j`. -/
def sampleImage (rows cols : Nat) : Mat :=
  { rows := rows, cols := cols, at_ := fun i j => ((i + j : Nat) : Int) }

/-- An environment: the matcher answers with the column index scaled by 16 on
the size of the left image; the file `small.png` decodes to 6 rows of 8
pixels, the file `none.png` is unreadable, every other file decodes to 300 rows
of 400 pixels. -/
def sampleEnv : Env :=
  { sgbm := fun _ l _ => { rows := l.rows, cols := l.cols, at_ := fun _ j => 16 * (j : Int) }
    imread := fun f =>
      if f = "small.png" then sampleImage 6 8
      else if f = "none.png" then Mat.nil
      else sampleImage 300 400 }

/-- A window with the parameters of the constructor and the given images. -/
def sampleWindow (left right : Mat) : MainWindow :=
  { ui := sampleUi, sgbm_ := ctorParams, left_image := left, right_image := right,
    sgbm_calls := [] }

/-- A run from the window of the constructor: both images are loaded, then the
SAD-window slot is called with 8 and the slot of the number of disparities
with 50.  It ends with 7 and 48 stored, after five invocations of the matcher. -/
def sampleEvents : List Event :=
  [Event.pushButton_left "small.png", Event.pushButton_right "small.png",
    Event.SAD_window_size 8, Event.num_of_disparity 50]

/-! ## Arithmetic of the machine integers -/

theorem tdiv_of_pos_divisor (a b : Int) (hb : 0 < b) :
    a.tdiv b = if 0 ≤ a then a / b else -((-a) / b) := by
  split
  · exact Int.tdiv_eq_ediv ‹_› (le_of_lt hb)
  · have e := Int.tdiv_eq_ediv (a := -a) (b := b) (by omega) (le_of_lt hb)
    rw [Int.neg_tdiv] at e
    omega

theorem cRem_two (v : Int) : cRem v 2 = if 0 ≤ v then v % 2 else -((-v) % 2) := by
  unfold cRem
  have e := Int.tmod_def v 2
  have k := tdiv_of_pos_divisor v 2 (by decide)
  split at k <;> simp only [*, if_true, if_false] <;> omega

theorem cRem_sixteen (v : Int) : cRem v 16 = if 0 ≤ v then v % 16 else -((-v) % 16) := by
  unfold cRem
  have e := Int.tmod_def v 16
  have k := tdiv_of_pos_divisor v 16 (by decide)
  split at k <;> simp only [*, if_true, if_false] <;> omega

theorem cRem_two_eq_zero_iff (v : Int) : cRem v 2 = 0 ↔ v % 2 = 0 := by
  rw [cRem_two]; split <;> omega

theorem cRem_sixteen_eq_zero_iff (v : Int) : cRem v 16 = 0 ↔ v % 16 = 0 := by
  rw [cRem_sixteen]; split <;> omega

theorem wrapInt_of_int (x : Int) (h1 : INT_MIN ≤ x) (h2 : x ≤ INT_MAX) : wrapInt x = x := by
  unfold INT_MIN at h1
  unfold INT_MAX at h2
  unfold wrapInt
  omega

/-! ## Minimum and maximum of a field -/

theorem foldl_min_le_init (l : List Int) (a : Int) : l.foldl min a ≤ a := by
  induction l generalizing a with
  | nil => simp
  | cons x xs ih => exact le_trans (ih (min a x)) (min_le_left a x)

theorem foldl_min_le_of_mem (l : List Int) (a x : Int) (hx : x ∈ l) : l.foldl min a ≤ x := by
  induction l generalizing a with
  | nil => cases hx
  | cons y ys ih =>
    rcases List.mem_cons.mp hx with rfl | h
    · exact le_trans (foldl_min_le_init ys (min a x)) (min_le_right a x)
    · exact ih (min a y) h

theorem foldl_min_mem (l : List Int) (a : Int) : l.foldl min a = a ∨ l.foldl min a ∈ l := by
  induction l generalizing a with
  | nil => simp
  | cons x xs ih =>
    rcases ih (min a x) with h | h
    · rw [List.foldl_cons, h]
      rcases min_choice a x with e | e
      · left; exact e
      · right; rw [e]; exact List.mem_cons_self x xs
    · right; exact List.mem_cons_of_mem x h

theorem init_le_foldl_max (l : List Int) (a : Int) : a ≤ l.foldl max a := by
  induction l generalizing a with
  | nil => simp
  | cons x xs ih => exact le_trans (le_max_left a x) (ih (max a x))

theorem le_foldl_max_of_mem (l : List Int) (a x : Int) (hx : x ∈ l) : x ≤ l.foldl max a := by
  induction l generalizing a with
  | nil => cases hx
  | cons y ys ih =>
    rcases List.mem_cons.mp hx with rfl | h
    · exact le_trans (le_max_right a x) (init_le_foldl_max ys (max a x))
    · exact ih (max a y) h

theorem foldl_max_mem (l : List Int) (a : Int) : l.foldl max a = a ∨ l.foldl max a ∈ l := by
  induction l generalizing a with
  | nil => simp
  | cons x xs ih =>
    rcases ih (max a x) with h | h
    · rw [List.foldl_cons, h]
      rcases max_choice a x with e | e
      · left; exact e
      · right; rw [e]; exact List.mem_cons_self x xs
    · right; exact List.mem_cons_of_mem x h

theorem mem_pixels (m : Mat) (x : Int) :
    x ∈ m.pixels ↔ ∃ i j, i < m.rows ∧ j < m.cols ∧ m.at_ i j = x := by
  unfold Mat.pixels
  simp only [List.mem_flatMap, List.mem_map, List.mem_range]
  constructor
  · rintro ⟨i, hi, j, hj, e⟩; exact ⟨i, j, hi, hj, e⟩
  · rintro ⟨i, j, hi, hj, e⟩; exact ⟨i, hi, j, hj, e⟩

theorem headD_mem_of_mem (l : List Int) (x : Int) (hx : x ∈ l) : l.headD 0 ∈ l := by
  cases l with
  | nil => cases hx
  | cons y ys => simp

/-- The value `minVal` is a lower bound of the pixels of the field. -/
theorem minVal_le (m : Mat) (i j : Nat) (hi : i < m.rows) (hj : j < m.cols) :
    m.minVal ≤ m.at_ i j :=
  foldl_min_le_of_mem _ _ _ ((mem_pixels m _).mpr ⟨i, j, hi, hj, rfl⟩)

/-- The value `maxVal` is an upper bound of the pixels of the field. -/
theorem le_maxVal (m : Mat) (i j : Nat) (hi : i < m.rows) (hj : j < m.cols) :
    m.at_ i j ≤ m.maxVal :=
  le_foldl_max_of_mem _ _ _ ((mem_pixels m _).mpr ⟨i, j, hi, hj, rfl⟩)

/-- In a field with a pixel, `minVal` is the value of one of the pixels. -/
theorem minVal_attained (m : Mat) (i j : Nat) (hi : i < m.rows) (hj : j < m.cols) :
    ∃ p q, p < m.rows ∧ q < m.cols ∧ m.at_ p q = m.minVal := by
  have hmem : m.at_ i j ∈ m.pixels := (mem_pixels m _).mpr ⟨i, j, hi, hj, rfl⟩
  have hh := headD_mem_of_mem _ _ hmem
  rcases foldl_min_mem m.pixels (m.pixels.headD 0) with h | h
  · exact (mem_pixels m _).mp (by unfold Mat.minVal; rw [h]; exact hh)
  · exact (mem_pixels m _).mp h

/-- In a field with a pixel, `maxVal` is the value of one of the pixels. -/
theorem maxVal_attained (m : Mat) (i j : Nat) (hi : i < m.rows) (hj : j < m.cols) :
    ∃ p q, p < m.rows ∧ q < m.cols ∧ m.at_ p q = m.maxVal := by
  have hmem : m.at_ i j ∈ m.pixels := (mem_pixels m _).mpr ⟨i, j, hi, hj, rfl⟩
  have hh := headD_mem_of_mem _ _ hmem
  rcases foldl_max_mem m.pixels (m.pixels.headD 0) with h | h
  · exact (mem_pixels m _).mp (by unfold Mat.maxVal; rw [h]; exact hh)
  · exact (mem_pixels m _).mp h

/-- A pixel that no pixel undercuts holds `minVal`. -/
theorem eq_minVal_of_isMinAt (m : Mat) (i j : Nat) (h : m.IsMinAt i j) :
    m.at_ i j = m.minVal := by
  obtain ⟨hi, hj, hall⟩ := h
  obtain ⟨p, q, hp, hq, e⟩ := minVal_attained m i j hi hj
  exact le_antisymm (e ▸ hall p q hp hq) (minVal_le m i j hi hj)

/-- A pixel that no pixel exceeds holds `maxVal`. -/
theorem eq_maxVal_of_isMaxAt (m : Mat) (i j : Nat) (h : m.IsMaxAt i j) :
    m.at_ i j = m.maxVal := by
  obtain ⟨hi, hj, hall⟩ := h
  obtain ⟨p, q, hp, hq, e⟩ := maxVal_attained m i j hi hj
  exact le_antisymm (le_maxVal m i j hi hj) (e ▸ hall p q hp hq)

/-- In a field whose pixels all hold one value, `maxVal` equals `minVal`. -/
theorem maxVal_eq_minVal_of_uniform (m : Mat) (h : m.Uniform) : m.maxVal = m.minVal := by
  by_cases hne : ∃ i j, i < m.rows ∧ j < m.cols
  · obtain ⟨i, j, hi, hj⟩ := hne
    obtain ⟨p, q, hp, hq, e⟩ := minVal_attained m i j hi hj
    obtain ⟨p1, q1, hp1, hq1, e1⟩ := maxVal_attained m i j hi hj
    rw [← e, ← e1]
    exact h p1 q1 p q hp1 hq1 hp hq
  · have hnil : m.pixels = [] := by
      apply List.eq_nil_iff_forall_not_mem.mpr
      intro x hx
      obtain ⟨i, j, hi, hj, _⟩ := (mem_pixels m x).mp hx
      exact hne ⟨i, j, hi, hj⟩
    simp [Mat.maxVal, Mat.minVal, hnil]

/-! ## Normalization -/

theorem roundDiv_eq_ediv (n d : Int) (hd : 0 < d) : roundDiv n d = (2 * n + d) / (2 * d) := by
  unfold roundDiv
  exact Int.fdiv_eq_ediv _ (by omega)

/-- The function `roundDiv` is the rounding of the exact quotient. -/
theorem roundDiv_eq_round (n d : Int) (hd : 0 < d) :
    roundDiv n d = round ((n : ℚ) / (d : ℚ)) := by
  rw [roundDiv_eq_ediv n d hd, round_eq]
  have hd0 : (d : ℚ) ≠ 0 := by exact_mod_cast (ne_of_gt hd)
  have e : (n : ℚ) / (d : ℚ) + 1 / 2 = ((2 * n + d : Int) : ℚ) / ((2 * d : Int) : ℚ) := by
    push_cast
    field_simp
    ring
  have hD : ((2 * d : Int) : ℚ) = (((2 * d).toNat : ℕ) : ℚ) := by
    have h := Int.toNat_of_nonneg (show (0 : Int) ≤ 2 * d by omega)
    exact_mod_cast h.symm
  rw [e, hD, Rat.floor_intCast_div_natCast, Int.toNat_of_nonneg (by omega)]

theorem roundDiv_zero_num (d : Int) (hd : 0 < d) : roundDiv 0 d = 0 := by
  rw [roundDiv_eq_ediv 0 d hd]
  exact Int.ediv_eq_zero_of_lt (by omega) (by omega)

theorem roundDiv_bounds (n d : Int) (hd : 0 < d) (h0 : 0 ≤ n) (h1 : n ≤ d * 255) :
    0 ≤ roundDiv n d ∧ roundDiv n d ≤ 255 := by
  rw [roundDiv_eq_ediv n d hd]
  constructor
  · exact Int.ediv_nonneg (by omega) (by omega)
  · have h : (2 * n + d) / (2 * d) < 256 :=
      Int.ediv_lt_of_lt_mul (by omega) (by omega)
    omega

theorem roundDiv_full (d : Int) (hd : 0 < d) : roundDiv (d * 255) d = 255 := by
  have hb := (roundDiv_bounds (d * 255) d hd (by omega) (le_refl _)).2
  have hl : (255 : Int) ≤ roundDiv (d * 255) d := by
    rw [roundDiv_eq_ediv _ d hd]
    exact Int.le_ediv_of_mul_le (by omega) (by omega)
  omega

theorem clamp_of_mem (x : Int) (h0 : 0 ≤ x) (h1 : x ≤ 255) : clamp 0 255 x = x := by
  unfold clamp
  rw [min_eq_right h1, max_eq_right h0]

theorem castUChar_of_mem (x : Int) (h0 : 0 ≤ x) (h1 : x ≤ 255) : castUChar x = x := by
  unfold castUChar
  omega

/-- The rescaled value of a pixel of the field lies between 0 and 255 before
the clamp is applied. -/
theorem rescaled_bounds (m : Mat) (i j : Nat) (hi : i < m.rows) (hj : j < m.cols)
    (h : m.minVal < m.maxVal) :
    0 ≤ roundDiv ((m.at_ i j - m.minVal) * 255) (m.maxVal - m.minVal) ∧
      roundDiv ((m.at_ i j - m.minVal) * 255) (m.maxVal - m.minVal) ≤ 255 := by
  have hlo := minVal_le m i j hi hj
  have hhi := le_maxVal m i j hi hj
  exact roundDiv_bounds _ _ (by omega) (by omega) (by omega)

/-- The normalization returns a field for every input: the division by
`max - min` is reached only when the divisor is not zero. -/
theorem cv_normalize_eq (src : Mat) :
    cv_normalize src =
      some { src with at_ := (fun i j =>
        if src.maxVal = src.minVal then 0
        else clamp 0 255
          (roundDiv ((src.at_ i j - src.minVal) * 255) (src.maxVal - src.minVal))) } := by
  unfold cv_normalize
  by_cases h : src.maxVal = src.minVal
  · simp [h]
  · have h2 : src.maxVal - src.minVal ≠ 0 := by omega
    simp [h, h2]

/-- C6: in a disparity field whose minimum is strictly below its maximum (both
taken over all pixels), lines 153-159 produce an 8-bit image in which every
pixel that held the minimum is 0 and every pixel that held the maximum is 255. -/
theorem normalize_min_to_0_max_to_255 (field : Mat) (h : field.minVal < field.maxVal) :
    ∃ disp, normalize_and_convert field = some disp ∧
      ∀ i j, (field.IsMinAt i j → disp.at_ i j = 0) ∧
        (field.IsMaxAt i j → disp.at_ i j = 255) := by
  have hne : ¬ field.maxVal = field.minVal := by omega
  refine ⟨_, by unfold normalize_and_convert; rw [cv_normalize_eq]; rfl, ?_⟩
  intro i j
  constructor
  · intro hmin
    have e := eq_minVal_of_isMinAt field i j hmin
    obtain ⟨hi, hj, _⟩ := hmin
    simp only [convert_16S_to_8U, hi, hj, and_self, if_true, hne, if_false, e, sub_self,
      zero_mul]
    rw [roundDiv_zero_num _ (by omega)]
    rfl
  · intro hmax
    have e := eq_maxVal_of_isMaxAt field i j hmax
    obtain ⟨hi, hj, _⟩ := hmax
    simp only [convert_16S_to_8U, hi, hj, and_self, if_true, hne, if_false, e]
    rw [roundDiv_full _ (by omega)]
    rfl

/-- Witness for C6: a field of one row holding 3 and 7. -/
theorem normalize_min_to_0_max_to_255_witness :
    ∃ disp, normalize_and_convert
        { rows := 1, cols := 2, at_ := fun _ j => if j = 0 then 3 else 7 } = some disp ∧
      ∀ i j, ((Mat.mk 1 2 (fun _ j => if j = 0 then 3 else 7)).IsMinAt i j → disp.at_ i j = 0) ∧
        ((Mat.mk 1 2 (fun _ j => if j = 0 then 3 else 7)).IsMaxAt i j → disp.at_ i j = 255) :=
  normalize_min_to_0_max_to_255 (Mat.mk 1 2 (fun _ j => if j = 0 then 3 else 7)) (by decide)

/-- C7: for a disparity field whose pixels all hold the same value (non-empty
or not), lines 153-159 run without a division by zero and produce an image with
the same number of rows and columns in which every pixel is 0. -/
theorem normalize_uniform_all_zero (field : Mat) (h : field.Uniform) :
    ∃ disp, normalize_and_convert field = some disp ∧
      disp.rows = field.rows ∧ disp.cols = field.cols ∧ ∀ i j, disp.at_ i j = 0 := by
  have he := maxVal_eq_minVal_of_uniform field h
  refine ⟨_, by unfold normalize_and_convert; rw [cv_normalize_eq]; rfl, ?_, ?_, ?_⟩
  · rfl
  · rfl
  · intro i j
    simp only [convert_16S_to_8U, he, if_true]
    split <;> rfl

/-- Witness for C7: a field of two rows and two columns holding 42 everywhere. -/
theorem normalize_uniform_all_zero_witness :
    ∃ disp, normalize_and_convert (Mat.mk 2 2 (fun _ _ => 42)) = some disp ∧
      disp.rows = 2 ∧ disp.cols = 2 ∧ ∀ i j, disp.at_ i j = 0 :=
  normalize_uniform_all_zero (Mat.mk 2 2 (fun _ _ => 42)) (fun _ _ _ _ _ _ _ _ => rfl)

/-- C9: for every disparity field (in particular every 16-bit signed one) the
normalization of line 153 returns a field whose pixels all lie between 0 and
255, so the cast of line 159 keeps the value of each pixel. -/
theorem normalized_values_fit_uchar (field : Mat) :
    ∃ norm, cv_normalize field = some norm ∧
      norm.rows = field.rows ∧ norm.cols = field.cols ∧
      ∀ i j, i < norm.rows → j < norm.cols →
        0 ≤ norm.at_ i j ∧ norm.at_ i j ≤ 255 ∧
          (convert_16S_to_8U norm).at_ i j = norm.at_ i j := by
  refine ⟨_, cv_normalize_eq field, ?_, ?_, ?_⟩
  · rfl
  · rfl
  intro i j hi hj
  have hb : 0 ≤ (if field.maxVal = field.minVal then (0 : Int)
      else clamp 0 255
        (roundDiv ((field.at_ i j - field.minVal) * 255) (field.maxVal - field.minVal))) ∧
      (if field.maxVal = field.minVal then (0 : Int)
      else clamp 0 255
        (roundDiv ((field.at_ i j - field.minVal) * 255) (field.maxVal - field.minVal)))
        ≤ 255 := by
    split
    · exact ⟨le_refl _, by decide⟩
    · unfold clamp
      exact ⟨le_max_left _ _, max_le (by decide) (min_le_left _ _)⟩
  refine ⟨hb.1, hb.2, ?_⟩
  simp only [convert_16S_to_8U]
  rw [if_pos ⟨hi, hj⟩]
  exact castUChar_of_mem _ hb.1 hb.2

/-! ## The depth-map computation -/

theorem normalize_and_convert_isSome (m : Mat) : ∃ disp, normalize_and_convert m = some disp :=
  ⟨_, by unfold normalize_and_convert; rw [cv_normalize_eq]; rfl⟩

theorem compute_depth_map_of_empty (env : Env) (w : MainWindow)
    (h : w.left_image.empty = true ∨ w.right_image.empty = true) :
    compute_depth_map env w = some w := by
  unfold compute_depth_map
  rcases h with h | h <;> simp [h]

theorem compute_depth_map_spec (env : Env) (w : MainWindow) :
    ∃ w1, compute_depth_map env w = some w1 ∧ ComputeStep w w1 := by
  unfold compute_depth_map
  split
  · exact ⟨w, rfl, rfl, rfl, rfl, rfl, rfl, 0, by simp⟩
  · split
    · exact ⟨_, rfl, rfl, rfl, rfl, rfl, rfl, 0, by simp⟩
    · obtain ⟨disp, hd⟩ :=
        normalize_and_convert_isSome (env.sgbm w.sgbm_ w.left_image w.right_image)
      simp only [hd]
      exact ⟨_, rfl, rfl, rfl, rfl, rfl, rfl, 1, by simp⟩

/-- C3: when both images are non-empty and differ in the number of rows or of
columns, `compute_depth_map` returns with the size-mismatch text in the label;
the matcher is not invoked and no disparity map is shown, whatever the
parameters are. -/
theorem compute_depth_map_size_mismatch (env : Env) (w : MainWindow)
    (hl : w.left_image.empty = false) (hr : w.right_image.empty = false)
    (hne : w.left_image.rows ≠ w.right_image.rows ∨ w.left_image.cols ≠ w.right_image.cols) :
    ∃ w1, compute_depth_map env w = some w1 ∧
      w1.ui.label_depth_map = LabelContent.text sizeMismatchText ∧
      w1.sgbm_calls = w.sgbm_calls ∧
      w1 = { w with ui := { w.ui with label_depth_map := LabelContent.text sizeMismatchText } } := by
  refine ⟨_, ?_, ?_, ?_, rfl⟩
  · unfold compute_depth_map
    have h2 : (w.left_image.rows != w.right_image.rows ||
        w.left_image.cols != w.right_image.cols) = true := by
      rcases hne with h | h <;> simp [h]
    simp only [hl, hr, h2]
    rfl
  · rfl
  · rfl

/-- Witness for C3: a left image of 2 rows and 3 columns, a right image of 3
rows and 2 columns. -/
theorem compute_depth_map_size_mismatch_witness :
    ∃ w1, compute_depth_map sampleEnv (sampleWindow (sampleImage 2 3) (sampleImage 3 2)) = some w1 ∧
      w1.ui.label_depth_map = LabelContent.text sizeMismatchText ∧
      w1.sgbm_calls = [] ∧
      w1 = { sampleWindow (sampleImage 2 3) (sampleImage 3 2) with
        ui := { sampleUi with label_depth_map := LabelContent.text sizeMismatchText } } :=
  compute_depth_map_size_mismatch sampleEnv (sampleWindow (sampleImage 2 3) (sampleImage 3 2))
    rfl rfl (Or.inl (by decide))

/-- C4, as the code has it: for non-empty images of equal size and every
parameter block, whatever `P1` and `P2` are, `compute_depth_map` checks no
parameter; it invokes the matcher once with the stored parameters and shows the
normalized disparity map. -/
theorem compute_depth_map_equal_size (env : Env) (w : MainWindow)
    (hl : w.left_image.empty = false) (hr : w.right_image.empty = false)
    (hrows : w.left_image.rows = w.right_image.rows)
    (hcols : w.left_image.cols = w.right_image.cols) :
    ∃ w1 disp, compute_depth_map env w = some w1 ∧
      normalize_and_convert (env.sgbm w.sgbm_ w.left_image w.right_image) = some disp ∧
      w1.sgbm_calls = w.sgbm_calls ++ [w.sgbm_] ∧
      w1.ui.label_depth_map = LabelContent.pixmap disp ∧
      w1.sgbm_ = w.sgbm_ := by
  obtain ⟨disp, hd⟩ := normalize_and_convert_isSome (env.sgbm w.sgbm_ w.left_image w.right_image)
  refine ⟨{ w with
      sgbm_calls := w.sgbm_calls ++ [w.sgbm_]
      ui := { w.ui with label_depth_map := LabelContent.pixmap disp } }, disp, ?_, hd, ?_, ?_, ?_⟩
  · unfold compute_depth_map
    simp only [hl, hr, hrows, hcols, hd]
    simp
  · rfl
  · rfl
  · rfl

/-- Witness for C4 as the code has it: equal images of 2 rows and 2 columns
and a parameter block with `P2 = 100` below `P1 = 120`. -/
theorem compute_depth_map_equal_size_witness :
    ∃ w1 disp,
      compute_depth_map sampleEnv
        { sampleWindow (sampleImage 2 2) (sampleImage 2 2) with
          sgbm_ := { ctorParams with P2 := 100 } } = some w1 ∧
      normalize_and_convert
        (sampleEnv.sgbm { ctorParams with P2 := 100 } (sampleImage 2 2) (sampleImage 2 2))
        = some disp ∧
      w1.sgbm_calls = [] ++ [{ ctorParams with P2 := 100 }] ∧
      w1.ui.label_depth_map = LabelContent.pixmap disp ∧
      w1.sgbm_ = { ctorParams with P2 := 100 } :=
  compute_depth_map_equal_size sampleEnv
    { sampleWindow (sampleImage 2 2) (sampleImage 2 2) with
      sgbm_ := { ctorParams with P2 := 100 } } rfl rfl rfl rfl

/-- Counterexample to C4: with `P1 = 120` stored and two equal images of 2
rows and 2 columns, the slot of the `P2` slider called with 100 stores
`P2 = 100`, not above `P1`, and the matcher is invoked with these parameters. -/
theorem P2_le_P1_reaches_matcher :
    (120 : Int) = ctorParams.P1 ∧ (100 : Int) ≤ ctorParams.P1 ∧
      (on_horizontalSlider_P2_valueChanged sampleEnv 100
        (sampleWindow (sampleImage 2 2) (sampleImage 2 2))).map (fun w => w.sgbm_calls)
        = some [{ ctorParams with P2 := 100 }] := by
  refine ⟨rfl, by decide, ?_⟩
  decide

/-! ## The two coercing slots -/

theorem SAD_slot_of_odd (env : Env) (v : Int) (w : MainWindow) (h : ¬ cRem v 2 = 0) :
    on_horizontalSlider_SAD_window_size_valueChanged env v w =
      compute_depth_map env { w with sgbm_ := { w.sgbm_ with SADWindowSize := v } } := by
  rw [on_horizontalSlider_SAD_window_size_valueChanged, dif_neg h]

theorem SAD_slot_of_even (env : Env) (v : Int) (w : MainWindow) (h : cRem v 2 = 0) :
    on_horizontalSlider_SAD_window_size_valueChanged env v w =
      (on_horizontalSlider_SAD_window_size_valueChanged env (wrapInt (v - 1))
        { w with ui := { w.ui with horizontalSlider_SAD_window_size :=
          w.ui.horizontalSlider_SAD_window_size.setValue (wrapInt (v - 1)) } }).bind
        (fun w1 => compute_depth_map env
          { w1 with sgbm_ := { w1.sgbm_ with SADWindowSize := wrapInt (v - 1) } }) := by
  rw [on_horizontalSlider_SAD_window_size_valueChanged, dif_pos h]
  dsimp only
  split <;> rename_i e <;> rw [e] <;> rfl

/-- What a run of the slot of the SAD-window slider does with an `int` other
than `INT_MIN`. -/
theorem SAD_slot_spec (env : Env) (v : Int) (w : MainWindow) (hv : IntArg v) :
    ∃ w1, on_horizontalSlider_SAD_window_size_valueChanged env v w = some w1 ∧
      w1.sgbm_ = { w.sgbm_ with SADWindowSize := if v % 2 = 0 then v - 1 else v } ∧
      w1.left_image = w.left_image ∧ w1.right_image = w.right_image ∧
      w1.ui.horizontalSlider_SAD_window_size.written =
        w.ui.horizontalSlider_SAD_window_size.written ++ (if v % 2 = 0 then [v - 1] else []) ∧
      w1.ui.horizontalSlider_num_of_disparity = w.ui.horizontalSlider_num_of_disparity ∧
      ∃ k, w1.sgbm_calls = w.sgbm_calls ++
        List.replicate k { w.sgbm_ with SADWindowSize := if v % 2 = 0 then v - 1 else v } := by
  obtain ⟨hlo, hhi⟩ := hv
  by_cases h : cRem v 2 = 0
  · have hev : v % 2 = 0 := (cRem_two_eq_zero_iff v).mp h
    have hw : wrapInt (v - 1) = v - 1 :=
      wrapInt_of_int _ (by unfold INT_MIN at *; omega) (by unfold INT_MAX at *; omega)
    have hodd : ¬ cRem (v - 1) 2 = 0 := by
      rw [cRem_two_eq_zero_iff]; omega
    rw [SAD_slot_of_even env v w h, hw, SAD_slot_of_odd env (v - 1) _ hodd]
    obtain ⟨wa, ha, sa, la, ra, da, na, ka, ca⟩ := compute_depth_map_spec env
      { ({ w with ui := { w.ui with horizontalSlider_SAD_window_size :=
          w.ui.horizontalSlider_SAD_window_size.setValue (v - 1) } } : MainWindow) with
        sgbm_ := { w.sgbm_ with SADWindowSize := v - 1 } }
    obtain ⟨wb, hb, sb, lb, rb, db, nb, kb, cb⟩ := compute_depth_map_spec env
      { wa with sgbm_ := { wa.sgbm_ with SADWindowSize := v - 1 } }
    rw [ha, Option.some_bind, hb]
    simp only [sa] at sb cb
    simp only [if_pos hev]
    refine ⟨wb, rfl, sb, lb.trans la, rb.trans ra, ?_, nb.trans na, ka + kb, ?_⟩
    · rw [db, da]; rfl
    · rw [cb, ca, List.append_assoc, List.replicate_add]
  · have hev : ¬ v % 2 = 0 := fun e => h ((cRem_two_eq_zero_iff v).mpr e)
    rw [SAD_slot_of_odd env v w h]
    obtain ⟨wa, ha, sa, la, ra, da, na, ka, ca⟩ := compute_depth_map_spec env
      { w with sgbm_ := { w.sgbm_ with SADWindowSize := v } }
    simp only [if_neg hev]
    refine ⟨wa, ha, sa, la, ra, ?_, na, ka, ca⟩
    rw [da]; simp

theorem num_slot_of_multiple (env : Env) (v : Int) (w : MainWindow) (h : cRem v 16 = 0) :
    set_num_of_disparity_slider_to_multiple_16 env v w =
      compute_depth_map env { w with sgbm_ := { w.sgbm_ with numberOfDisparities := v } } := by
  rw [set_num_of_disparity_slider_to_multiple_16, dif_neg (not_not.mpr h)]

theorem num_slot_of_other (env : Env) (v : Int) (w : MainWindow) (h : cRem v 16 ≠ 0) :
    set_num_of_disparity_slider_to_multiple_16 env v w =
      (set_num_of_disparity_slider_to_multiple_16 env (wrapInt (v - cRem v 16))
        { w with ui := { w.ui with horizontalSlider_num_of_disparity :=
          w.ui.horizontalSlider_num_of_disparity.setValue (wrapInt (v - cRem v 16)) } }).bind
        (fun w1 => compute_depth_map env
          { w1 with sgbm_ := { w1.sgbm_ with numberOfDisparities := wrapInt (v - cRem v 16) } }) := by
  rw [set_num_of_disparity_slider_to_multiple_16, dif_pos h]
  dsimp only
  split <;> rename_i e <;> rw [e] <;> rfl

/-- What a run of `set_num_of_disparity_slider_to_multiple_16` does with an `int`. -/
theorem num_slot_spec (env : Env) (v : Int) (w : MainWindow)
    (hlo : INT_MIN ≤ v) (hhi : v ≤ INT_MAX) :
    ∃ w1, set_num_of_disparity_slider_to_multiple_16 env v w = some w1 ∧
      w1.sgbm_ = { w.sgbm_ with numberOfDisparities := v - cRem v 16 } ∧
      w1.left_image = w.left_image ∧ w1.right_image = w.right_image ∧
      w1.ui.horizontalSlider_num_of_disparity.written =
        w.ui.horizontalSlider_num_of_disparity.written ++
          (if cRem v 16 = 0 then [] else [v - cRem v 16]) ∧
      w1.ui.horizontalSlider_SAD_window_size = w.ui.horizontalSlider_SAD_window_size ∧
      ∃ k, w1.sgbm_calls = w.sgbm_calls ++
        List.replicate k { w.sgbm_ with numberOfDisparities := v - cRem v 16 } := by
  by_cases h : cRem v 16 = 0
  · rw [num_slot_of_multiple env v w h]
    obtain ⟨wa, ha, sa, la, ra, da, na, ka, ca⟩ := compute_depth_map_spec env
      { w with sgbm_ := { w.sgbm_ with numberOfDisparities := v } }
    simp only [h, sub_zero, if_true]
    refine ⟨wa, ha, sa, la, ra, ?_, da, ka, ca⟩
    rw [na]; simp
  · have hr := cRem_sixteen v
    have hw : wrapInt (v - cRem v 16) = v - cRem v 16 :=
      wrapInt_of_int _ (by unfold INT_MIN at *; split at hr <;> omega)
        (by unfold INT_MAX at *; split at hr <;> omega)
    have hmul : cRem (v - cRem v 16) 16 = 0 := by
      rw [cRem_sixteen_eq_zero_iff]; split at hr <;> omega
    rw [num_slot_of_other env v w h, hw, num_slot_of_multiple env _ _ hmul]
    obtain ⟨wa, ha, sa, la, ra, da, na, ka, ca⟩ := compute_depth_map_spec env
      { ({ w with ui := { w.ui with horizontalSlider_num_of_disparity :=
          w.ui.horizontalSlider_num_of_disparity.setValue (v - cRem v 16) } } : MainWindow) with
        sgbm_ := { w.sgbm_ with numberOfDisparities := v - cRem v 16 } }
    obtain ⟨wb, hb, sb, lb, rb, db, nb, kb, cb⟩ := compute_depth_map_spec env
      { wa with sgbm_ := { wa.sgbm_ with numberOfDisparities := v - cRem v 16 } }
    rw [ha, Option.some_bind, hb]
    simp only [sa] at sb cb
    simp only [if_neg h]
    refine ⟨wb, rfl, sb, lb.trans la, rb.trans ra, ?_, db.trans da, ka + kb, ?_⟩
    · rw [nb, na]; rfl
    · rw [cb, ca, List.append_assoc, List.replicate_add]

/-- C2: for every `int` value `v` other than `INT_MIN`, the slot of the
SAD-window slider returns and leaves `v - 1` in `sgbm_.SADWindowSize` when `v`
is even and `v` itself when `v` is odd. -/
theorem SAD_window_size_stored (env : Env) (v : Int) (w : MainWindow)
    (hmin : INT_MIN < v) (hmax : v ≤ INT_MAX) :
    ∃ w1, on_horizontalSlider_SAD_window_size_valueChanged env v w = some w1 ∧
      w1.sgbm_.SADWindowSize = if v % 2 = 0 then v - 1 else v := by
  obtain ⟨w1, h1, hs, _⟩ := SAD_slot_spec env v w ⟨hmin, hmax⟩
  exact ⟨w1, h1, by rw [hs]⟩

/-- Witness for C2: the slot called with 8 on a window holding two images. -/
theorem SAD_window_size_stored_witness :
    ∃ w1, on_horizontalSlider_SAD_window_size_valueChanged sampleEnv 8
        (sampleWindow (sampleImage 6 8) (sampleImage 6 8)) = some w1 ∧
      w1.sgbm_.SADWindowSize = if (8 : Int) % 2 = 0 then 8 - 1 else 8 :=
  SAD_window_size_stored sampleEnv 8 (sampleWindow (sampleImage 6 8) (sampleImage 6 8))
    (by decide) (by decide)

/-- C1, as the code has it: for every `int` value `v`,
`set_num_of_disparity_slider_to_multiple_16` returns and leaves in
`sgbm_.numberOfDisparities` the value `v - v % 16` for the truncating `%`, which
is the quotient of `v` by 16 truncated towards zero, times 16.  For `v ≥ 0` this
is `floor(v / 16) * 16`; for `v < 0` it is `-(floor(-v / 16) * 16)`, the least
multiple of 16 that is not below `v`. -/
theorem num_of_disparity_stored (env : Env) (v : Int) (w : MainWindow)
    (hmin : INT_MIN ≤ v) (hmax : v ≤ INT_MAX) :
    ∃ w1, set_num_of_disparity_slider_to_multiple_16 env v w = some w1 ∧
      w1.sgbm_.numberOfDisparities = Int.tdiv v 16 * 16 ∧
      (0 ≤ v → w1.sgbm_.numberOfDisparities = Int.fdiv v 16 * 16) ∧
      (v < 0 → w1.sgbm_.numberOfDisparities = -(Int.fdiv (-v) 16 * 16)) ∧
      (v < 0 → v ≤ w1.sgbm_.numberOfDisparities ∧ w1.sgbm_.numberOfDisparities < v + 16) := by
  obtain ⟨w1, h1, hs, _⟩ := num_slot_spec env v w hmin hmax
  have hnum : w1.sgbm_.numberOfDisparities = v - cRem v 16 := by rw [hs]
  have hr := cRem_sixteen v
  have ht : cRem v 16 = v - 16 * Int.tdiv v 16 := Int.tmod_def v 16
  have f1 : Int.fdiv v 16 = v / 16 := Int.fdiv_eq_ediv v (by decide)
  have f2 : Int.fdiv (-v) 16 = (-v) / 16 := Int.fdiv_eq_ediv (-v) (by decide)
  refine ⟨w1, h1, by omega, ?_, ?_, ?_⟩
  · intro h0; rw [if_pos h0] at hr; omega
  · intro h0; rw [if_neg (by omega)] at hr; omega
  · intro h0; rw [if_neg (by omega)] at hr; omega

/-- Witness for C1 as the code has it: the function called with -5. -/
theorem num_of_disparity_stored_witness :
    ∃ w1, set_num_of_disparity_slider_to_multiple_16 sampleEnv (-5)
        (sampleWindow (sampleImage 6 8) (sampleImage 6 8)) = some w1 ∧
      w1.sgbm_.numberOfDisparities = Int.tdiv (-5) 16 * 16 ∧
      ((0 : Int) ≤ -5 → w1.sgbm_.numberOfDisparities = Int.fdiv (-5) 16 * 16) ∧
      ((-5 : Int) < 0 → w1.sgbm_.numberOfDisparities = -(Int.fdiv (-(-5)) 16 * 16)) ∧
      ((-5 : Int) < 0 →
        -5 ≤ w1.sgbm_.numberOfDisparities ∧ w1.sgbm_.numberOfDisparities < -5 + 16) :=
  num_of_disparity_stored sampleEnv (-5) (sampleWindow (sampleImage 6 8) (sampleImage 6 8))
    (by decide) (by decide)

/-- Counterexample to C1: called with -5 the function stores 0, while
`floor(-5 / 16) * 16`, the greatest multiple of 16 not above -5, is -16. -/
theorem num_of_disparity_negative_not_floor :
    (set_num_of_disparity_slider_to_multiple_16 sampleEnv (-5)
        (sampleWindow (sampleImage 6 8) (sampleImage 6 8))).map
        (fun w => w.sgbm_.numberOfDisparities) = some 0 ∧
      Int.fdiv (-5) 16 * 16 = -16 := by
  obtain ⟨w1, h1, hs, _⟩ := num_slot_spec sampleEnv (-5)
    (sampleWindow (sampleImage 6 8) (sampleImage 6 8)) (by decide) (by decide)
  refine ⟨?_, by decide⟩
  rw [h1, Option.map_some', hs]
  decide

/-- C10: both coercions are idempotent, and the run of the slot that `setValue`
starts inside a callback does not coerce again.  For every `int` value `v`
other than `INT_MIN` and each of the two callbacks: the callback returns; the
value it stores fails the test of its `if`; called again with the stored value
it stores the same value and writes nothing to its slider; and the callback
itself writes at most once to its slider, so the nesting stops after one level. -/
theorem coercions_idempotent (env : Env) (v : Int) (w : MainWindow)
    (hmin : INT_MIN < v) (hmax : v ≤ INT_MAX) :
    (∃ w1 w2, on_horizontalSlider_SAD_window_size_valueChanged env v w = some w1 ∧
      ¬ cRem w1.sgbm_.SADWindowSize 2 = 0 ∧
      on_horizontalSlider_SAD_window_size_valueChanged env w1.sgbm_.SADWindowSize w1 = some w2 ∧
      w2.sgbm_.SADWindowSize = w1.sgbm_.SADWindowSize ∧
      w2.ui.horizontalSlider_SAD_window_size.written =
        w1.ui.horizontalSlider_SAD_window_size.written ∧
      w1.ui.horizontalSlider_SAD_window_size.written =
        w.ui.horizontalSlider_SAD_window_size.written ++
          (if cRem v 2 = 0 then [w1.sgbm_.SADWindowSize] else [])) ∧
    (∃ w1 w2, set_num_of_disparity_slider_to_multiple_16 env v w = some w1 ∧
      cRem w1.sgbm_.numberOfDisparities 16 = 0 ∧
      set_num_of_disparity_slider_to_multiple_16 env w1.sgbm_.numberOfDisparities w1 = some w2 ∧
      w2.sgbm_.numberOfDisparities = w1.sgbm_.numberOfDisparities ∧
      w2.ui.horizontalSlider_num_of_disparity.written =
        w1.ui.horizontalSlider_num_of_disparity.written ∧
      w1.ui.horizontalSlider_num_of_disparity.written =
        w.ui.horizontalSlider_num_of_disparity.written ++
          (if cRem v 16 = 0 then [] else [w1.sgbm_.numberOfDisparities])) := by
  unfold INT_MIN at hmin
  unfold INT_MAX at hmax
  constructor
  · obtain ⟨w1, h1, hs, _, _, hw, _⟩ := SAD_slot_spec env v w ⟨hmin, hmax⟩
    have hc : w1.sgbm_.SADWindowSize = if v % 2 = 0 then v - 1 else v := by rw [hs]
    have hodd : w1.sgbm_.SADWindowSize % 2 ≠ 0 := by rw [hc]; split <;> omega
    have harg : IntArg w1.sgbm_.SADWindowSize := by
      unfold IntArg INT_MIN INT_MAX; rw [hc]; split <;> omega
    obtain ⟨w2, h2, hs2, _, _, hw2, _⟩ :=
      SAD_slot_spec env w1.sgbm_.SADWindowSize w1 harg
    refine ⟨w1, w2, h1, ?_, h2, ?_, ?_, ?_⟩
    · rw [cRem_two_eq_zero_iff]; exact hodd
    · rw [hs2, if_neg hodd]
    · rw [hw2, if_neg hodd, List.append_nil]
    · rw [hw, hc]
      by_cases he : v % 2 = 0
      · simp only [if_pos he, if_pos ((cRem_two_eq_zero_iff v).mpr he)]
      · simp only [if_neg he, if_neg (fun e => he ((cRem_two_eq_zero_iff v).mp e))]
  · obtain ⟨w1, h1, hs, _, _, hw, _⟩ := num_slot_spec env v w (by unfold INT_MIN; omega)
      (by unfold INT_MAX; omega)
    have hc : w1.sgbm_.numberOfDisparities = v - cRem v 16 := by rw [hs]
    have hr := cRem_sixteen v
    have hmul : cRem w1.sgbm_.numberOfDisparities 16 = 0 := by
      rw [cRem_sixteen_eq_zero_iff, hc]; split at hr <;> omega
    obtain ⟨w2, h2, hs2, _, _, hw2, _⟩ :=
      num_slot_spec env w1.sgbm_.numberOfDisparities w1
        (by unfold INT_MIN; rw [hc]; split at hr <;> omega)
        (by unfold INT_MAX; rw [hc]; split at hr <;> omega)
    refine ⟨w1, w2, h1, hmul, h2, ?_, ?_, ?_⟩
    · rw [hs2, hmul, sub_zero]
    · rw [hw2, if_pos hmul, List.append_nil]
    · rw [hw, hc]

/-- Witness for C10: both callbacks called with 40 on a window holding two images. -/
theorem coercions_idempotent_witness :
    (∃ w1 w2, on_horizontalSlider_SAD_window_size_valueChanged sampleEnv 40
        (sampleWindow (sampleImage 6 8) (sampleImage 6 8)) = some w1 ∧
      ¬ cRem w1.sgbm_.SADWindowSize 2 = 0 ∧
      on_horizontalSlider_SAD_window_size_valueChanged sampleEnv w1.sgbm_.SADWindowSize w1
        = some w2 ∧
      w2.sgbm_.SADWindowSize = w1.sgbm_.SADWindowSize ∧
      w2.ui.horizontalSlider_SAD_window_size.written =
        w1.ui.horizontalSlider_SAD_window_size.written ∧
      w1.ui.horizontalSlider_SAD_window_size.written =
        (sampleWindow (sampleImage 6 8) (sampleImage 6 8)).ui.horizontalSlider_SAD_window_size.written
          ++ (if cRem 40 2 = 0 then [w1.sgbm_.SADWindowSize] else [])) ∧
    (∃ w1 w2, set_num_of_disparity_slider_to_multiple_16 sampleEnv 40
        (sampleWindow (sampleImage 6 8) (sampleImage 6 8)) = some w1 ∧
      cRem w1.sgbm_.numberOfDisparities 16 = 0 ∧
      set_num_of_disparity_slider_to_multiple_16 sampleEnv w1.sgbm_.numberOfDisparities w1
        = some w2 ∧
      w2.sgbm_.numberOfDisparities = w1.sgbm_.numberOfDisparities ∧
      w2.ui.horizontalSlider_num_of_disparity.written =
        w1.ui.horizontalSlider_num_of_disparity.written ∧
      w1.ui.horizontalSlider_num_of_disparity.written =
        (sampleWindow (sampleImage 6 8) (sampleImage 6 8)).ui.horizontalSlider_num_of_disparity.written
          ++ (if cRem 40 16 = 0 then [] else [w1.sgbm_.numberOfDisparities])) :=
  coercions_idempotent sampleEnv 40 (sampleWindow (sampleImage 6 8) (sampleImage 6 8))
    (by decide) (by decide)

/-! ## The constructor and the image buttons -/

/-- The constructor returns the window `ctorWindow`: every slot it runs finds
no image and returns at once, 11 is odd and 128 is a multiple of 16. -/
theorem MainWindow_ctor_eq (env : Env) (ui0 : Ui_MainWindow) :
    MainWindow_ctor env ui0 = some (ctorWindow ui0) := by
  have e1 : ¬ cRem 11 2 = 0 := by decide
  have e2 : cRem 128 16 = 0 := by decide
  have hn : Mat.nil.empty = true := rfl
  simp [MainWindow_ctor, on_horizontalSlider_pre_filter_cap_valueChanged,
    on_horizontalSlider_min_disparity_valueChanged,
    on_horizontalSlider_num_of_disparity_valueChanged,
    on_horizontalSlider_uniqueness_ratio_valueChanged,
    on_horizontalSlider_speckle_window_size_valueChanged,
    on_horizontalSlider_speckle_range_valueChanged,
    on_horizontalSlider_disp_12_max_diff_valueChanged,
    on_horizontalSlider_P1_valueChanged, on_horizontalSlider_P2_valueChanged,
    on_horizontalSlider_use_full_dp_valueChanged,
    SAD_slot_of_odd _ _ _ e1, num_slot_of_multiple _ _ _ e2, compute_depth_map_of_empty, hn,
    StereoSGBM.default, boolToInt, ctorWindow, ctorParams]

theorem set_SADWindowSize_keeps (w : MainWindow) :
    (set_SADWindowSize w).sgbm_ = w.sgbm_ ∧ (set_SADWindowSize w).sgbm_calls = w.sgbm_calls ∧
      (set_SADWindowSize w).left_image = w.left_image ∧
      (set_SADWindowSize w).right_image = w.right_image :=
  ⟨rfl, rfl, rfl, rfl⟩

/-- After a load through the left button the maximum of the SAD-window slider
is the one that `set_SADWindowSize` derives from the images held before the
load: the call of line 80 precedes the assignment of line 90. -/
theorem pushButton_left_maximum_from_old_images (env : Env) (f : String) (w : MainWindow)
    (hf : f.isEmpty = false) (hm : (env.imread f).empty = false) :
    ∃ w1, on_pushButton_left_clicked env f w = some w1 ∧
      w1.left_image = env.imread f ∧
      w1.ui.horizontalSlider_SAD_window_size.maximum =
        (set_SADWindowSize w).ui.horizontalSlider_SAD_window_size.maximum := by
  unfold on_pushButton_left_clicked
  simp only [hf, hm, Bool.false_eq_true, if_false]
  obtain ⟨w1, h1, _, hl, _, hS, _⟩ := compute_depth_map_spec env
    { set_SADWindowSize { w with ui := { w.ui with label_image_left := some f } } with
      left_image := env.imread f }
  exact ⟨w1, h1, hl, by rw [hS]; rfl⟩

/-- After a load through the right button the maximum of the SAD-window slider
is the one that `set_SADWindowSize` derives from the images held before the
load: the call of line 117 precedes the assignment of line 127. -/
theorem pushButton_right_maximum_from_old_images (env : Env) (f : String) (w : MainWindow)
    (hf : f.isEmpty = false) (hm : (env.imread f).empty = false) :
    ∃ w1, on_pushButton_right_clicked env f w = some w1 ∧
      w1.right_image = env.imread f ∧
      w1.ui.horizontalSlider_SAD_window_size.maximum =
        (set_SADWindowSize w).ui.horizontalSlider_SAD_window_size.maximum := by
  unfold on_pushButton_right_clicked
  simp only [hf, hm, Bool.false_eq_true, if_false]
  obtain ⟨w1, h1, _, _, hr, hS, _⟩ := compute_depth_map_spec env
    { set_SADWindowSize { w with ui := { w.ui with label_image_right := some f } } with
      right_image := env.imread f }
  exact ⟨w1, h1, hr, by rw [hS]; rfl⟩

/-- C5, the code at a failing input: in the window that the constructor builds,
a click on the left button that loads an image of 6 rows and 8 columns leaves
the maximum of the SAD-window slider at 255, while the bound derived from the
image then held is `max(5, min(255, min(8, 6))) = 6`.  A second click that
replaces an image of 300 rows and 400 columns by the one of 6 rows and 8
columns also leaves 255, the bound of the replaced image. -/
theorem left_load_maximum_not_from_new_image :
    ((MainWindow_ctor sampleEnv sampleUi).bind
        (on_pushButton_left_clicked sampleEnv "small.png")).map
        (fun w => (w.ui.horizontalSlider_SAD_window_size.maximum, w.left_image.rows,
          w.left_image.cols, w.right_image.empty)) = some (255, 6, 8, true) ∧
      (((MainWindow_ctor sampleEnv sampleUi).bind
        (on_pushButton_left_clicked sampleEnv "big.png")).bind
        (on_pushButton_left_clicked sampleEnv "small.png")).map
        (fun w => (w.ui.horizontalSlider_SAD_window_size.maximum, w.left_image.rows,
          w.left_image.cols, w.right_image.empty)) = some (255, 6, 8, true) ∧
      max (5 : Int) (min 255 (min 8 6)) = 6 := by
  rw [MainWindow_ctor_eq]
  refine ⟨by decide, by decide, by decide⟩

/-! ## The two structural constraints along every run -/

theorem compute_depth_map_inv (env : Env) (w w1 : MainWindow)
    (hc : compute_depth_map env w = some w1) (h : Inv w) : Inv w1 := by
  obtain ⟨w2, h2, hs, _, _, _, _, k, hk⟩ := compute_depth_map_spec env w
  rw [hc] at h2
  cases h2
  refine ⟨by rw [hs]; exact h.1, ?_⟩
  intro p hp
  rw [hk, List.mem_append] at hp
  rcases hp with hp | hp
  · exact h.2 p hp
  · rw [List.eq_of_mem_replicate hp]; exact h.1

theorem SAD_slot_inv (env : Env) (v : Int) (w w1 : MainWindow) (hv : IntArg v) (h : Inv w)
    (hc : on_horizontalSlider_SAD_window_size_valueChanged env v w = some w1) : Inv w1 := by
  obtain ⟨w2, h2, hs, _, _, _, _, k, hk⟩ := SAD_slot_spec env v w hv
  rw [hc] at h2
  cases h2
  have hg : GoodParams { w.sgbm_ with SADWindowSize := if v % 2 = 0 then v - 1 else v } := by
    refine ⟨?_, h.1.2⟩
    show (if v % 2 = 0 then v - 1 else v) % 2 = 1
    split <;> omega
  refine ⟨by rw [hs]; exact hg, ?_⟩
  intro p hp
  rw [hk, List.mem_append] at hp
  rcases hp with hp | hp
  · exact h.2 p hp
  · rw [List.eq_of_mem_replicate hp]; exact hg

theorem num_slot_inv (env : Env) (v : Int) (w w1 : MainWindow) (hv : IntArg v) (h : Inv w)
    (hc : set_num_of_disparity_slider_to_multiple_16 env v w = some w1) : Inv w1 := by
  obtain ⟨w2, h2, hs, _, _, _, _, k, hk⟩ :=
    num_slot_spec env v w (le_of_lt hv.1) hv.2
  rw [hc] at h2
  cases h2
  have hg : GoodParams { w.sgbm_ with numberOfDisparities := v - cRem v 16 } := by
    refine ⟨h.1.1, ?_⟩
    show (v - cRem v 16) % 16 = 0
    have hr := cRem_sixteen v
    split at hr <;> omega
  refine ⟨by rw [hs]; exact hg, ?_⟩
  intro p hp
  rw [hk, List.mem_append] at hp
  rcases hp with hp | hp
  · exact h.2 p hp
  · rw [List.eq_of_mem_replicate hp]; exact hg

theorem pushButton_left_inv (env : Env) (f : String) (w w1 : MainWindow) (h : Inv w)
    (hc : on_pushButton_left_clicked env f w = some w1) : Inv w1 := by
  unfold on_pushButton_left_clicked at hc
  split at hc
  · cases hc; exact h
  · dsimp only at hc
    split at hc
    · cases hc
    · exact compute_depth_map_inv env _ w1 hc h

theorem pushButton_right_inv (env : Env) (f : String) (w w1 : MainWindow) (h : Inv w)
    (hc : on_pushButton_right_clicked env f w = some w1) : Inv w1 := by
  unfold on_pushButton_right_clicked at hc
  split at hc
  · cases hc; exact h
  · dsimp only at hc
    split at hc
    · cases hc
    · exact compute_depth_map_inv env _ w1 hc h

theorem step_inv (env : Env) (e : Event) (w w1 : MainWindow) (hv : e.valid) (h : Inv w)
    (hc : step env e w = some w1) : Inv w1 := by
  cases e with
  | SAD_window_size v => exact SAD_slot_inv env v w w1 hv h hc
  | num_of_disparity_sliderMoved v => exact num_slot_inv env v w w1 hv h hc
  | num_of_disparity v => exact num_slot_inv env v w w1 hv h hc
  | pushButton_left f => exact pushButton_left_inv env f w w1 h hc
  | pushButton_right f => exact pushButton_right_inv env f w w1 h hc
  | pre_filter_cap v => exact compute_depth_map_inv env _ w1 hc h
  | min_disparity v => exact compute_depth_map_inv env _ w1 hc h
  | uniqueness_ratio v => exact compute_depth_map_inv env _ w1 hc h
  | speckle_window_size v => exact compute_depth_map_inv env _ w1 hc h
  | speckle_range v => exact compute_depth_map_inv env _ w1 hc h
  | disp_12_max_diff v => exact compute_depth_map_inv env _ w1 hc h
  | P1 v => exact compute_depth_map_inv env _ w1 hc h
  | P2 v => exact compute_depth_map_inv env _ w1 hc h
  | use_full_dp v => exact compute_depth_map_inv env _ w1 hc h

theorem run_inv (env : Env) (events : List Event) (w w1 : MainWindow)
    (hv : ∀ e ∈ events, e.valid) (h : Inv w) (hc : run env events w = some w1) : Inv w1 := by
  induction events generalizing w with
  | nil =>
    simp only [run, Option.some.injEq] at hc
    rw [← hc]; exact h
  | cons e es ih =>
    simp only [run] at hc
    split at hc
    · cases hc
    · rename_i w2 hs
      exact ih w2 (fun x hx => hv x (List.mem_cons_of_mem e hx))
        (step_inv env e w w2 (hv e (List.mem_cons_self e es)) h hs) hc

theorem ctorWindow_inv (ui0 : Ui_MainWindow) : Inv (ctorWindow ui0) :=
  ⟨⟨show (11 : Int) % 2 = 1 by decide, show (128 : Int) % 16 = 0 by decide⟩,
    fun _ hp => by cases hp⟩

/-- Every slider callback returns when its argument is an `int` other than
`INT_MIN`, whatever the state. -/
theorem slider_step_returns (env : Env) (e : Event) (w : MainWindow) (hv : e.valid)
    (hs : ∀ f, e ≠ Event.pushButton_left f ∧ e ≠ Event.pushButton_right f) :
    ∃ w1, step env e w = some w1 := by
  cases e with
  | SAD_window_size v =>
    obtain ⟨w1, h1, _⟩ := SAD_slot_spec env v w hv; exact ⟨w1, h1⟩
  | num_of_disparity_sliderMoved v =>
    obtain ⟨w1, h1, _⟩ := num_slot_spec env v w (le_of_lt hv.1) hv.2; exact ⟨w1, h1⟩
  | num_of_disparity v =>
    obtain ⟨w1, h1, _⟩ := num_slot_spec env v w (le_of_lt hv.1) hv.2; exact ⟨w1, h1⟩
  | pushButton_left f => exact absurd rfl (hs f).1
  | pushButton_right f => exact absurd rfl (hs f).2
  | pre_filter_cap v => obtain ⟨w1, h1, _⟩ := compute_depth_map_spec env _; exact ⟨w1, h1⟩
  | min_disparity v => obtain ⟨w1, h1, _⟩ := compute_depth_map_spec env _; exact ⟨w1, h1⟩
  | uniqueness_ratio v => obtain ⟨w1, h1, _⟩ := compute_depth_map_spec env _; exact ⟨w1, h1⟩
  | speckle_window_size v => obtain ⟨w1, h1, _⟩ := compute_depth_map_spec env _; exact ⟨w1, h1⟩
  | speckle_range v => obtain ⟨w1, h1, _⟩ := compute_depth_map_spec env _; exact ⟨w1, h1⟩
  | disp_12_max_diff v => obtain ⟨w1, h1, _⟩ := compute_depth_map_spec env _; exact ⟨w1, h1⟩
  | P1 v => obtain ⟨w1, h1, _⟩ := compute_depth_map_spec env _; exact ⟨w1, h1⟩
  | P2 v => obtain ⟨w1, h1, _⟩ := compute_depth_map_spec env _; exact ⟨w1, h1⟩
  | use_full_dp v => obtain ⟨w1, h1, _⟩ := compute_depth_map_spec env _; exact ⟨w1, h1⟩

/-- C8: in every state that a finite sequence of slider callbacks (with `int`
arguments other than `INT_MIN`) and image loads reaches from the window built
by the constructor, `sgbm_.SADWindowSize` is odd and
`sgbm_.numberOfDisparities` is divisible by 16, and the parameters of every
invocation of the matcher up to that state met both constraints. -/
theorem reachable_params_odd_and_multiple_of_16 (env : Env) (ui0 : Ui_MainWindow)
    (events : List Event) (w0 w : MainWindow) (hv : ∀ e ∈ events, e.valid)
    (h0 : MainWindow_ctor env ui0 = some w0) (hrun : run env events w0 = some w) :
    Odd w.sgbm_.SADWindowSize ∧ (16 : Int) ∣ w.sgbm_.numberOfDisparities ∧
      ∀ p ∈ w.sgbm_calls, Odd p.SADWindowSize ∧ (16 : Int) ∣ p.numberOfDisparities := by
  rw [MainWindow_ctor_eq] at h0
  cases h0
  obtain ⟨⟨h1, h2⟩, h3⟩ := run_inv env events _ w hv (ctorWindow_inv ui0) hrun
  refine ⟨Int.odd_iff.mpr h1, Int.dvd_of_emod_eq_zero h2, ?_⟩
  intro p hp
  exact ⟨Int.odd_iff.mpr (h3 p hp).1, Int.dvd_of_emod_eq_zero (h3 p hp).2⟩

set_option maxRecDepth 100000 in
theorem sampleEvents_run :
    (run sampleEnv sampleEvents (ctorWindow sampleUi)).map
        (fun w => (w.sgbm_.SADWindowSize, w.sgbm_.numberOfDisparities, w.sgbm_calls.length))
      = some (7, 48, 5) := by
  have e8 : ∀ w, on_horizontalSlider_SAD_window_size_valueChanged sampleEnv 8 w = _ :=
    fun w => SAD_slot_of_even sampleEnv 8 w (by decide)
  have e7 : ∀ w,
      on_horizontalSlider_SAD_window_size_valueChanged sampleEnv (wrapInt (8 - 1)) w = _ :=
    fun w => SAD_slot_of_odd sampleEnv (wrapInt (8 - 1)) w (by decide)
  have e50 : ∀ w, set_num_of_disparity_slider_to_multiple_16 sampleEnv 50 w = _ :=
    fun w => num_slot_of_other sampleEnv 50 w (by decide)
  have e48 : ∀ w, set_num_of_disparity_slider_to_multiple_16 sampleEnv
      (wrapInt (50 - cRem 50 16)) w = _ :=
    fun w => num_slot_of_multiple sampleEnv (wrapInt (50 - cRem 50 16)) w (by decide)
  simp only [sampleEvents, run, step, on_horizontalSlider_num_of_disparity_valueChanged,
    e8, e7, e50, e48]
  decide

theorem sampleEvents_valid : ∀ e ∈ sampleEvents, e.valid := by
  intro e he
  simp only [sampleEvents, List.mem_cons, List.mem_singleton, List.not_mem_nil, or_false] at he
  rcases he with rfl | rfl | rfl | rfl
  · trivial
  · trivial
  · exact ⟨by decide, by decide⟩
  · exact ⟨by decide, by decide⟩

/-- Witness for C8: the run `sampleEvents` from the window of the constructor
reaches a state after five invocations of the matcher. -/
theorem reachable_params_odd_and_multiple_of_16_witness :
    ∃ w, MainWindow_ctor sampleEnv sampleUi = some (ctorWindow sampleUi) ∧
      run sampleEnv sampleEvents (ctorWindow sampleUi) = some w ∧
      w.sgbm_calls.length = 5 ∧
      Odd w.sgbm_.SADWindowSize ∧ (16 : Int) ∣ w.sgbm_.numberOfDisparities ∧
      ∀ p ∈ w.sgbm_calls, Odd p.SADWindowSize ∧ (16 : Int) ∣ p.numberOfDisparities := by
  have h := sampleEvents_run
  cases hr : run sampleEnv sampleEvents (ctorWindow sampleUi) with
  | none => rw [hr] at h; cases h
  | some w =>
    rw [hr, Option.map_some', Option.some.injEq, Prod.mk.injEq, Prod.mk.injEq] at h
    exact ⟨w, MainWindow_ctor_eq sampleEnv sampleUi, rfl, h.2.2,
      reachable_params_odd_and_multiple_of_16 sampleEnv sampleUi sampleEvents
        (ctorWindow sampleUi) w sampleEvents_valid (MainWindow_ctor_eq sampleEnv sampleUi) hr⟩

end SGBMTuner
